import Mathlib

/-!
Verification development for the Automated-Book-Publication pipeline
(`main.py`, `view_chromadb.py`).

The pipeline is embedded shallowly:
  * the ChromaDB collection is an association list from document id to the
    stored document (content plus the metadata dict written by the code);
  * console input (the operator's decisions and edit lines) is a list of
    lines, consumed in order; an exhausted input list corresponds to the
    Python process blocking on `input()` / raising `EOFError`, modelled as
    `none` ("the run never reaches the code after that read");
  * calls to the Gemini service are an oracle `spin : Nat → String → Option
    String` (iteration number and prompt text in, generated text out,
    `none` when the call raises and the `except` branch returns `None`);
  * Python string truthiness (`if not s: ...`) is the explicit test
    `s = ""` on the embedded side.
-/

namespace BookPipeline

/-- A document stored in the Chroma collection: the document text plus the
metadata dict `{"id": ..., "version_type": ...}` that
`store_content_in_chroma` writes alongside it. -/
structure StoredDoc where
  content : String
  metaId : String
  versionType : String
deriving Repr, DecidableEq

/-- The Chroma collection, as the pipeline uses it: an association list from
document id to stored document, in insertion order. -/
abbrev Collection := List (String × StoredDoc)

/-- Lookup of the document stored under an id (Chroma's get-by-id view of the
collection). -/
def findDoc : Collection → String → Option StoredDoc
  | [], _ => none
  | (i, d) :: c, id => if i = id then some d else findDoc c id

/-- Embedding of `store_content_in_chroma` (main.py lines 36-46).  The code
calls `collection.add`, which in ChromaDB inserts a NEW id and refuses an id
that is already present (duplicate-id adds are rejected/skipped by the
library; `upsert` would be the overwriting operation, and the code does not
use it).  The wrapper catches every exception and only logs it, so on a
duplicate id the collection is left unchanged.  Net state effect:
insert-if-absent. -/
def store_content_in_chroma (c : Collection) (content_id content_text : String)
    (version_type : String := "original") : Collection :=
  if (findDoc c content_id).isSome then c
  else c ++ [(content_id, ⟨content_text, content_id, version_type⟩)]

/-- The ids present in a collection, in insertion order. -/
def idsOf (c : Collection) : List String := c.map Prod.fst

/-- Python's `str.lower()` (ASCII case mapping, which covers every string the
pipeline compares). -/
def pyLower (s : String) : String := ⟨s.data.map Char.toLower⟩

/-- Python's `str.upper()` (ASCII case mapping). -/
def pyUpper (s : String) : String := ⟨s.data.map Char.toUpper⟩

/-- Python's `str.strip()`: drop leading and trailing whitespace. -/
def pyStrip (s : String) : String :=
  ⟨((s.data.dropWhile Char.isWhitespace).reverse.dropWhile Char.isWhitespace).reverse⟩

/-- Sentinel test of the edit loop (main.py line 162):
`line.strip().upper() == 'DONE'`. -/
def isSentinel (line : String) : Bool := pyUpper (pyStrip line) = "DONE"

/-- The edit-collection loop (main.py lines 159-164): read lines until the
sentinel, returning the collected lines and the unconsumed input.  `none`
when the input is exhausted before a sentinel appears (the Python process
would block on `input()` / raise `EOFError` there). -/
def splitAtSentinel : List String → Option (List String × List String)
  | [] => none
  | line :: rest =>
    if isSentinel line then some ([], rest)
    else
      match splitAtSentinel rest with
      | none => none
      | some (ls, r) => some (line :: ls, r)

/-- Embedding of `human_in_the_loop_feedback` (main.py lines 144-176) over an
explicit input stream.  Returns the checkpoint's return value (`none` inside
the pair = the Python function returned `None`, i.e. reject), the collection
after the checkpoint's stores, and the unconsumed input.  The outer `none`
means the input stream was exhausted (the process would block).  Unrecognized
commands re-prompt, consuming one line per attempt (the `while True` loop). -/
def human_in_the_loop_feedback (ai_generated_text chapter_id : String)
    (c : Collection) : List String → Option (Option String × Collection × List String)
  | [] => none
  | line :: rest =>
    let action := pyStrip (pyLower line)
    if action = "accept" then
      some (some ai_generated_text,
            store_content_in_chroma c (chapter_id ++ "_final") ai_generated_text "final",
            rest)
    else if action = "edit" then
      match splitAtSentinel rest with
      | none => none
      | some (edited_lines, rest2) =>
        let human_edited_text := String.intercalate "\n" edited_lines
        some (some human_edited_text,
              store_content_in_chroma c (chapter_id ++ "_human_edited")
                human_edited_text "human_edited",
              rest2)
    else if action = "reject" then
      some (none, c, rest)
    else
      human_in_the_loop_feedback ai_generated_text chapter_id c rest

/-- Embedding of `ai_spin_chapter` (main.py lines 100-120): `None` on falsy
input (the `if not original_text` short-circuit), otherwise the outcome of
the generative call, supplied by the oracle `spin` (`none` = the call raised
and the `except` branch returned `None`). -/
def ai_spin_chapter (spin : Nat → String → Option String)
    (original_text : String) (current_iteration : Nat) : Option String :=
  if original_text = "" then none else spin current_iteration original_text

/-- Outcome of the orchestrator's iteration loop (main.py lines 203-223):
the collection after the loop, the final `current_chapter_text`, the
unconsumed operator input, and the list of iteration indices whose body was
entered (the code logs "--- Starting Iteration i ---" at the top of each
entered body, so this is observable in the run's output). -/
structure LoopResult where
  collection : Collection
  current : String
  rest : List String
  started : List Nat
deriving Repr, DecidableEq

/-- Embedding of the `for i in range(1, num_iterations + 1)` loop of `main`
(main.py lines 203-223), iterating over the explicit index list.  Breaks
(returning the state so far) when the spun text is falsy (`if not
ai_spun_text`) and when the checkpoint's return value is falsy (`if
human_decision_text: ... else: break` — note that BOTH `None` and the empty
string take the `else` branch).  `current` is only updated on a truthy
checkpoint return.  `ai_review_chapter` only prints its feedback (main.py
lines 212-216); it touches neither the collection nor the control flow, so
it does not appear in the state. -/
def mainLoop (spin : Nat → String → Option String) (base : String) :
    List Nat → String → Collection → List String → Option LoopResult
  | [], current, c, input => some ⟨c, current, input, []⟩
  | i :: is, current, c, input =>
    match ai_spin_chapter spin current i with
    | none => some ⟨c, current, input, [i]⟩
    | some t =>
      if t = "" then some ⟨c, current, input, [i]⟩
      else
        let c1 := store_content_in_chroma c (base ++ "_ai_spun_iter_" ++ toString i) t
          ("ai_spun_iter_" ++ toString i)
        match human_in_the_loop_feedback t (base ++ "_iter_" ++ toString i) c1 input with
        | none => none
        | some (decision, c2, rest) =>
          match decision with
          | none => some ⟨c2, current, rest, [i]⟩
          | some txt =>
            if txt = "" then some ⟨c2, current, rest, [i]⟩
            else
              match mainLoop spin base is txt c2 rest with
              | none => none
              | some r => some ⟨r.collection, r.current, r.rest, i :: r.started⟩

/-- Outcome of one whole run of `main` (main.py lines 178-242): the final
collection, whether the run reached the semantic-search demonstration step
(main.py lines 225-240), and the iteration indices entered. -/
structure RunOutcome where
  collection : Collection
  reachedQuery : Bool
  started : List Nat
deriving Repr, DecidableEq

/-- Embedding of `main` (main.py lines 178-242) from the scrape onward.
`scraped` is `scrape_and_screenshot`'s result (`none` = it returned `None`);
`c0` is the collection `get_or_create_collection` hands back (empty on a
fresh store, the surviving documents on a reused one).  On a falsy scrape the
code returns before the loop and before the query (main.py lines 195-197).
The outer `none` means the operator input was exhausted mid-checkpoint (the
process blocks and never reaches the query). -/
def main (spin : Nat → String → Option String) (scraped : Option String)
    (chapter_id_base : String) (num_iterations : Nat) (c0 : Collection)
    (input : List String) : Option RunOutcome :=
  match scraped with
  | none => some ⟨c0, false, []⟩
  | some orig =>
    if orig = "" then some ⟨c0, false, []⟩
    else
      let c1 := store_content_in_chroma c0 (chapter_id_base ++ "_original") orig "original"
      match mainLoop spin chapter_id_base (List.range' 1 num_iterations) orig c1 input with
      | none => none
      | some r => some ⟨r.collection, true, r.started⟩

/-- One paragraph element of the scraped page: its text and whether it sits
inside `div.mw-parser-output` (so that the primary selector
`div.mw-parser-output p` matches it).  The document is the list of its `p`
elements in document order, which is what the fallback selector `body p`
matches. -/
structure Paragraph where
  text : String
  inParserOutput : Bool
deriving Repr, DecidableEq

/-- The primary selector `div.mw-parser-output p` (main.py line 85). -/
def queryPrimary (doc : List Paragraph) : List Paragraph :=
  doc.filter (·.inParserOutput)

/-- Embedding of the text-extraction step of `scrape_and_screenshot`
(main.py lines 85-89): query the primary selector; if it matches no
elements, fall back to `body p` (all paragraphs); join the elements' inner
texts with newlines, in document order. -/
def scraped_text (doc : List Paragraph) : String :=
  let content_elements := queryPrimary doc
  let content_elements := if content_elements.isEmpty then doc else content_elements
  String.intercalate "\n" (content_elements.map (·.text))

/-- One ranked search result: stored id, stored document, distance. -/
abbrev RankedResult := String × StoredDoc × Int

/-- Insert into a distance-ordered list (ascending), keeping earlier entries
first among ties — an executable model of the store returning its documents
ordered by ascending vector distance. -/
def insertByDist (x : RankedResult) : List RankedResult → List RankedResult
  | [] => [x]
  | y :: ys => if x.2.2 < y.2.2 then x :: y :: ys else y :: insertByDist x ys

/-- All stored documents ranked by ascending distance to the query text,
under the distance oracle `dist` (the embedding function plus the vector
metric are opaque to the pipeline; only the ordering matters to it). -/
def rankResults (dist : String → String → Int) (c : Collection)
    (query_text : String) : List RankedResult :=
  c.foldr (fun (p : String × StoredDoc) acc =>
    insertByDist (p.1, p.2, dist query_text p.2.content) acc) []

/-- Embedding of `semantic_search_chroma` (main.py lines 48-60): the
`n_results` nearest stored documents, with `n_results` DEFAULTING TO 1
exactly as in the code's signature `n_results=1`. -/
def semantic_search_chroma (dist : String → String → Int) (c : Collection)
    (query_text : String) (n_results : Nat := 1) : List RankedResult :=
  (rankResults dist c query_text).take n_results

/-- The fixed demonstration query text of `main` (main.py line 227). -/
def search_query : String := "What happens to the protagonist in the beginning?"

/-- The demonstration search `main` runs (main.py line 228):
`semantic_search_chroma(collection, search_query)` — no `n_results`
argument, so the default of 1 applies. -/
def main_semantic_search (dist : String → String → Int) (c : Collection) :
    List RankedResult :=
  semantic_search_chroma dist c search_query

/-- A concrete generative-service oracle for test runs: iteration `i` always
succeeds and yields `"spun_i"`. -/
def spinIterTag : Nat → String → Option String := fun i _ => some ("spun_" ++ toString i)

/-- A concrete generative-service oracle that succeeds on iteration 1 and
fails (raises, hence `None`) from iteration 2 on. -/
def spinFailsAt2 : Nat → String → Option String :=
  fun i _ => if i = 1 then some "t1" else none

/-! ### Spec-side definitions

These two definitions are written from the spec's words, not from the code:
they formalise the id naming convention the spec asserts
(`{base}_{stage}[_iter_{n}]`, §3), to be compared with the ids the code
actually produces. -/

/-- The stage labels of the spec's versionTag enum
`{original, ai_spun_iter_N, human_edited, final}` (§3), with `ai_spun` as the
stage and `_iter_N` as the optional iteration suffix of the convention. -/
def specStages : List String := ["original", "ai_spun", "human_edited", "final"]

/-- The spec's id naming convention (§3): `{base}_{stage}[_iter_{n}]` — the
stage label directly after the base, optionally followed by the iteration
suffix. -/
def followsConvention (base id : String) : Prop :=
  ∃ stage ∈ specStages,
    id = base ++ "_" ++ stage ∨ ∃ n : Nat, id = base ++ "_" ++ stage ++ "_iter_" ++ toString n

/-- The id shapes the code actually writes: `{base}_original` for the
scraped text, `{base}_ai_spun_iter_{n}` for the transformed text, and
`{base}_iter_{n}_final` / `{base}_iter_{n}_human_edited` for the checkpoint
variants (iteration infix BEFORE the stage suffix). -/
def writtenIdOk (base id : String) : Prop :=
  id = base ++ "_original" ∨
  (∃ n : Nat, id = base ++ "_ai_spun_iter_" ++ toString n) ∨
  (∃ n : Nat, id = base ++ "_iter_" ++ toString n ++ "_final") ∨
  (∃ n : Nat, id = base ++ "_iter_" ++ toString n ++ "_human_edited")

/-! ### Helper lemmas -/

theorem strData_append (a b : String) : (a ++ b).data = a.data ++ b.data := by
  cases a; cases b; rfl

theorem take_append_self (l₁ l₂ : List Char) : (l₁ ++ l₂).take l₁.length = l₁ := by
  induction l₁ with
  | nil => rfl
  | cons x xs ih => simp [ih]

/-- A string does not begin with `P` if its first `P.length` characters are
not `P`'s; in particular it is not `P ++ s` for any `s`. -/
theorem ne_append_right (a P : String) (h : a.data.take P.data.length ≠ P.data) :
    ∀ s : String, a ≠ P ++ s := by
  intro s he
  apply h
  have hd : a.data = P.data ++ s.data := by rw [he, strData_append]
  rw [hd, take_append_self]

theorem findDoc_append_of_none (c : Collection) (l : Collection) (id : String)
    (h : findDoc c id = none) : findDoc (c ++ l) id = findDoc l id := by
  induction c with
  | nil => rfl
  | cons p c ih =>
    obtain ⟨i, d⟩ := p
    by_cases hi : i = id
    · simp [findDoc, hi] at h
    · simp only [findDoc, List.cons_append, if_neg hi] at h ⊢
      exact ih h

theorem findDoc_append_of_some (c : Collection) (l : Collection) (id : String)
    (doc : StoredDoc) (h : findDoc c id = some doc) :
    findDoc (c ++ l) id = some doc := by
  induction c with
  | nil => simp [findDoc] at h
  | cons p c ih =>
    obtain ⟨i, d⟩ := p
    by_cases hi : i = id
    · simp only [findDoc, if_pos hi] at h
      simp [findDoc, hi, h]
    · simp only [findDoc, List.cons_append, if_neg hi] at h ⊢
      exact ih h

/-- A write always leaves the written id present. -/
theorem findDoc_store_isSome (c : Collection) (id ct tg : String) :
    (findDoc (store_content_in_chroma c id ct tg) id).isSome = true := by
  unfold store_content_in_chroma
  split
  · assumption
  · rename_i h
    rw [Option.not_isSome_iff_eq_none] at h
    rw [findDoc_append_of_none c _ id h]
    simp [findDoc]

/-- Ids of a collection after a write: the old ids, plus possibly the new one. -/
theorem mem_idsOf_store {x : String} (c : Collection) (id ct tg : String)
    (h : x ∈ idsOf (store_content_in_chroma c id ct tg)) : x ∈ idsOf c ∨ x = id := by
  unfold store_content_in_chroma at h
  split at h
  · exact Or.inl h
  · simp only [idsOf, List.map_append, List.mem_append] at h
    rcases h with h | h
    · exact Or.inl h
    · simp at h
      exact Or.inr h

/-! ### Unfolding lemmas for the checkpoint and the loop -/

theorem checkpoint_accept (text chapter_id : String) (c : Collection) (rest : List String) :
    human_in_the_loop_feedback text chapter_id c ("accept" :: rest) =
      some (some text, store_content_in_chroma c (chapter_id ++ "_final") text "final", rest) :=
  rfl

theorem checkpoint_edit (text chapter_id : String) (c : Collection)
    (input lines rest : List String) (h : splitAtSentinel input = some (lines, rest)) :
    human_in_the_loop_feedback text chapter_id c ("edit" :: input) =
      some (some (String.intercalate "\n" lines),
        store_content_in_chroma c (chapter_id ++ "_human_edited")
          (String.intercalate "\n" lines) "human_edited", rest) := by
  have ha : pyStrip (pyLower "edit") = "edit" := rfl
  simp [human_in_the_loop_feedback, h, ha]

theorem mainLoop_spin_fail (spin : Nat → String → Option String) (base current : String)
    (c : Collection) (input : List String) (i : Nat) (is : List Nat)
    (h : ai_spin_chapter spin current i = none) :
    mainLoop spin base (i :: is) current c input = some ⟨c, current, input, [i]⟩ := by
  simp [mainLoop, h]

theorem mainLoop_human_break (spin : Nat → String → Option String) (base current t : String)
    (c c2 : Collection) (input rest : List String) (i : Nat) (is : List Nat)
    (d : Option String)
    (hspin : ai_spin_chapter spin current i = some t) (ht : t ≠ "")
    (hchk : human_in_the_loop_feedback t (base ++ "_iter_" ++ toString i)
      (store_content_in_chroma c (base ++ "_ai_spun_iter_" ++ toString i) t
        ("ai_spun_iter_" ++ toString i)) input = some (d, c2, rest))
    (hd : d = none ∨ d = some "") :
    mainLoop spin base (i :: is) current c input = some ⟨c2, current, rest, [i]⟩ := by
  rcases hd with hd | hd <;> subst hd <;> simp [mainLoop, hspin, ht, hchk]

theorem mainLoop_human_continue (spin : Nat → String → Option String)
    (base current t txt : String) (c c2 : Collection) (input rest : List String)
    (i : Nat) (is : List Nat)
    (hspin : ai_spin_chapter spin current i = some t) (ht : t ≠ "")
    (hchk : human_in_the_loop_feedback t (base ++ "_iter_" ++ toString i)
      (store_content_in_chroma c (base ++ "_ai_spun_iter_" ++ toString i) t
        ("ai_spun_iter_" ++ toString i)) input = some (some txt, c2, rest))
    (htxt : txt ≠ "") :
    mainLoop spin base (i :: is) current c input =
      (mainLoop spin base is txt c2 rest).map
        (fun r => ⟨r.collection, r.current, r.rest, i :: r.started⟩) := by
  simp only [mainLoop, hspin, ht, if_neg ht, hchk, if_neg htxt]
  cases mainLoop spin base is txt c2 rest <;> rfl

/-- The checkpoint adds at most one id: `{chapter_id}_final` or
`{chapter_id}_human_edited`. -/
theorem checkpoint_ids {text chapter_id : String} {c : Collection} {input : List String}
    {d : Option String} {c' : Collection} {rest : List String}
    (h : human_in_the_loop_feedback text chapter_id c input = some (d, c', rest)) :
    ∀ x ∈ idsOf c',
      x ∈ idsOf c ∨ x = chapter_id ++ "_final" ∨ x = chapter_id ++ "_human_edited" := by
  induction input with
  | nil => simp [human_in_the_loop_feedback] at h
  | cons line rest₀ ih =>
    simp only [human_in_the_loop_feedback] at h
    split_ifs at h with h1 h2 h3
    · simp only [Option.some.injEq, Prod.mk.injEq] at h
      obtain ⟨-, hc, -⟩ := h
      subst hc
      intro x hx
      rcases mem_idsOf_store _ _ _ _ hx with hx | hx
      · exact Or.inl hx
      · exact Or.inr (Or.inl hx)
    · cases hsp : splitAtSentinel rest₀ with
      | none => simp [hsp] at h
      | some p =>
        obtain ⟨ls, r⟩ := p
        simp only [hsp, Option.some.injEq, Prod.mk.injEq] at h
        obtain ⟨-, hc, -⟩ := h
        subst hc
        intro x hx
        rcases mem_idsOf_store _ _ _ _ hx with hx | hx
        · exact Or.inl hx
        · exact Or.inr (Or.inr hx)
    · simp only [Option.some.injEq, Prod.mk.injEq] at h
      obtain ⟨-, hc, -⟩ := h
      subst hc
      exact fun x hx => Or.inl hx
    · exact ih h

/-- Every id the iteration loop adds has one of the three per-iteration
shapes the code writes. -/
theorem mainLoop_ids {spin : Nat → String → Option String} {base : String}
    {is : List Nat} {current : String} {c : Collection} {input : List String}
    {r : LoopResult} (h : mainLoop spin base is current c input = some r) :
    ∀ x ∈ idsOf r.collection, x ∈ idsOf c ∨ ∃ i : Nat,
      x = base ++ "_ai_spun_iter_" ++ toString i ∨
      x = base ++ "_iter_" ++ toString i ++ "_final" ∨
      x = base ++ "_iter_" ++ toString i ++ "_human_edited" := by
  induction is generalizing current c input r with
  | nil =>
    simp only [mainLoop, Option.some.injEq] at h
    subst h
    exact fun x hx => Or.inl hx
  | cons i is ih =>
    simp only [mainLoop] at h
    cases hsp : ai_spin_chapter spin current i with
    | none =>
      simp only [hsp, Option.some.injEq] at h
      subst h
      exact fun x hx => Or.inl hx
    | some t =>
      simp only [hsp] at h
      split_ifs at h with ht
      · simp only [Option.some.injEq] at h
        subst h
        exact fun x hx => Or.inl hx
      · cases hchk : human_in_the_loop_feedback t (base ++ "_iter_" ++ toString i)
            (store_content_in_chroma c (base ++ "_ai_spun_iter_" ++ toString i) t
              ("ai_spun_iter_" ++ toString i)) input with
        | none => simp [hchk] at h
        | some v =>
          obtain ⟨d, c2, rest⟩ := v
          have step : ∀ x ∈ idsOf c2, x ∈ idsOf c ∨ ∃ j : Nat,
              x = base ++ "_ai_spun_iter_" ++ toString j ∨
              x = base ++ "_iter_" ++ toString j ++ "_final" ∨
              x = base ++ "_iter_" ++ toString j ++ "_human_edited" := by
            intro x hx
            rcases checkpoint_ids hchk x hx with hx1 | hx1 | hx1
            · rcases mem_idsOf_store _ _ _ _ hx1 with hx2 | hx2
              · exact Or.inl hx2
              · exact Or.inr ⟨i, Or.inl hx2⟩
            · exact Or.inr ⟨i, Or.inr (Or.inl hx1)⟩
            · exact Or.inr ⟨i, Or.inr (Or.inr hx1)⟩
          simp only [hchk] at h
          cases d with
          | none =>
            simp only [Option.some.injEq] at h
            subst h
            exact step
          | some txt =>
            dsimp only at h
            split_ifs at h with htxt
            · simp only [Option.some.injEq] at h
              subst h
              exact step
            · cases hrec : mainLoop spin base is txt c2 rest with
              | none => simp [hrec] at h
              | some r' =>
                simp only [hrec, Option.some.injEq] at h
                subst h
                intro x hx
                rcases ih hrec x hx with hx2 | hx2
                · exact step x hx2
                · exact Or.inr hx2

/-! ### Claim theorems -/

/-- C1 (counterexample).  The claim says that after an edit session with zero
lines the Orchestrator "sets the current text to that returned empty string
and proceeds to the next iteration rather than stopping the loop; only a null
(reject) return stops the loop".  Concrete run: two configured iterations,
spin always succeeds, operator input `["edit", "DONE"]`.  The checkpoint
returns the empty string and stores it as a valid `human_edited` variant —
yet `started = [1]`: iteration 2 is never entered, because `main`'s
`if human_decision_text:` treats the empty string exactly like `None`
(Python truthiness) and breaks.  A non-null return stopped the loop. -/
theorem C1_counterexample :
    human_in_the_loop_feedback "spun_1" "bk_iter_1"
        [("bk_original", ⟨"orig", "bk_original", "original"⟩),
         ("bk_ai_spun_iter_1", ⟨"spun_1", "bk_ai_spun_iter_1", "ai_spun_iter_1"⟩)]
        ["edit", "DONE"] =
      some (some "",
        [("bk_original", ⟨"orig", "bk_original", "original"⟩),
         ("bk_ai_spun_iter_1", ⟨"spun_1", "bk_ai_spun_iter_1", "ai_spun_iter_1"⟩),
         ("bk_iter_1_human_edited", ⟨"", "bk_iter_1_human_edited", "human_edited"⟩)], []) ∧
    main spinIterTag (some "orig") "bk" 2 [] ["edit", "DONE"] =
      some ⟨[("bk_original", ⟨"orig", "bk_original", "original"⟩),
             ("bk_ai_spun_iter_1", ⟨"spun_1", "bk_ai_spun_iter_1", "ai_spun_iter_1"⟩),
             ("bk_iter_1_human_edited", ⟨"", "bk_iter_1_human_edited", "human_edited"⟩)],
            true, [1]⟩ := by
  constructor <;> decide

/-- C1 (amended).  If the decision is `edit` and the operator enters zero
lines before the sentinel, the checkpoint returns the empty string as valid
edited content and stores it under the `human_edited` id — but the
Orchestrator then treats that empty return the same as a rejection: the loop
stops immediately (remaining iterations dropped, current text NOT updated).
Any falsy checkpoint return (null or empty) stops the loop, not only null. -/
theorem C1_amended (spin : Nat → String → Option String) (base : String) (i : Nat)
    (is : List Nat) (current : String) (c : Collection) (rest : List String) (t : String)
    (hcur : current ≠ "") (hspin : spin i current = some t) (ht : t ≠ "") :
    mainLoop spin base (i :: is) current c ("edit" :: "DONE" :: rest) =
      some ⟨store_content_in_chroma
              (store_content_in_chroma c (base ++ "_ai_spun_iter_" ++ toString i) t
                ("ai_spun_iter_" ++ toString i))
              (base ++ "_iter_" ++ toString i ++ "_human_edited") "" "human_edited",
            current, rest, [i]⟩ := by
  have hspin' : ai_spin_chapter spin current i = some t := by
    simp [ai_spin_chapter, hcur, hspin]
  have hsp : splitAtSentinel ("DONE" :: rest) = some ([], rest) := by
    simp [splitAtSentinel, show isSentinel "DONE" = true from rfl]
  have hchk := checkpoint_edit t (base ++ "_iter_" ++ toString i)
    (store_content_in_chroma c (base ++ "_ai_spun_iter_" ++ toString i) t
      ("ai_spun_iter_" ++ toString i)) ("DONE" :: rest) [] rest hsp
  rw [show String.intercalate "\n" ([] : List String) = "" from rfl] at hchk
  exact mainLoop_human_break spin base current t _ _ ("edit" :: "DONE" :: rest) rest i is
    (some "") hspin' ht hchk (Or.inr rfl)

/-- C1 (witness): the amended theorem at a concrete input. -/
theorem C1_amended_witness :
    mainLoop spinIterTag "bk" [1, 2] "orig" [] ["edit", "DONE"] =
      some ⟨store_content_in_chroma
              (store_content_in_chroma [] ("bk" ++ "_ai_spun_iter_" ++ toString 1) "spun_1"
                ("ai_spun_iter_" ++ toString 1))
              ("bk" ++ "_iter_" ++ toString 1 ++ "_human_edited") "" "human_edited",
            "orig", [], [1]⟩ :=
  C1_amended spinIterTag "bk" 1 [2] "orig" [] [] "spun_1" (by decide) rfl (by decide)

/-- C2 (counterexample).  The claim says the store write operation is
write-or-overwrite under the id.  It is not: `store_content_in_chroma` calls
`collection.add`, which refuses an existing id (and the wrapper swallows the
error), so a second write under `"doc1"` with DIFFERENT content `"y"` leaves
the store unchanged — the content under `"doc1"` is still `"x"`, not `"y"`. -/
theorem C2_counterexample :
    store_content_in_chroma (store_content_in_chroma [] "doc1" "x" "original")
        "doc1" "y" "final" = [("doc1", ⟨"x", "doc1", "original"⟩)] ∧
    findDoc (store_content_in_chroma (store_content_in_chroma [] "doc1" "x" "original")
        "doc1" "y" "final") "doc1" ≠ some ⟨"y", "doc1", "final"⟩ := by
  constructor <;> decide

/-- C2 (amended).  The store write operation is insert-if-absent, not
write-or-overwrite: a second write under an id that is already present — with
the same or any other content and tag — leaves the store exactly as it was
after the first write.  In particular calling it twice with the same id and
the same content is equivalent to (indeed equal to) calling it once. -/
theorem C2_amended (c : Collection) (id ct tg ct' tg' : String) :
    store_content_in_chroma (store_content_in_chroma c id ct tg) id ct' tg' =
      store_content_in_chroma c id ct tg := by
  have h : (findDoc (store_content_in_chroma c id ct tg) id).isSome = true :=
    findDoc_store_isSome c id ct tg
  generalize hg : store_content_in_chroma c id ct tg = s at h ⊢
  unfold store_content_in_chroma
  rw [if_pos h]

/-- C3 (counterexample).  The claim says every id the pipeline writes follows
`{base}_{stage}[_iter_{n}]` (stage label first, optional iteration suffix
after it).  A one-iteration accept run with the code's own base id writes
`gates_of_morning_ch1_iter_1_final` — iteration infix BEFORE the stage — and
that id matches the convention for no stage and no `n`. -/
theorem C3_counterexample :
    main spinIterTag (some "orig") "gates_of_morning_ch1" 1 [] ["accept"] =
      some ⟨[("gates_of_morning_ch1_original",
              ⟨"orig", "gates_of_morning_ch1_original", "original"⟩),
             ("gates_of_morning_ch1_ai_spun_iter_1",
              ⟨"spun_1", "gates_of_morning_ch1_ai_spun_iter_1", "ai_spun_iter_1"⟩),
             ("gates_of_morning_ch1_iter_1_final",
              ⟨"spun_1", "gates_of_morning_ch1_iter_1_final", "final"⟩)], true, [1]⟩ ∧
    ¬ followsConvention "gates_of_morning_ch1" "gates_of_morning_ch1_iter_1_final" := by
  constructor
  · decide
  · intro hconv
    obtain ⟨stage, hmem, hcase⟩ := hconv
    simp only [specStages, List.mem_cons, List.not_mem_nil, or_false] at hmem
    rcases hmem with rfl | rfl | rfl | rfl <;>
      rcases hcase with heq | ⟨n, heq⟩ <;>
      first
        | exact absurd heq (by decide)
        | exact ne_append_right _ _ (by decide) (toString n) heq

/-- C3 (amended).  Every id a run writes has one of the code's shapes:
`{base}_original`, `{base}_ai_spun_iter_{n}` (these two do follow the spec's
convention), or `{base}_iter_{n}_final` / `{base}_iter_{n}_human_edited`
(the checkpoint variants, with the iteration infix before the stage suffix,
NOT `{base}_{stage}[_iter_{n}]`).  Ids already present in the initial
collection are the only other ids. -/
theorem C3_amended (spin : Nat → String → Option String) (scraped : Option String)
    (base : String) (n : Nat) (c0 : Collection) (input : List String) (r : RunOutcome)
    (h : main spin scraped base n c0 input = some r) :
    ∀ id ∈ idsOf r.collection, id ∈ idsOf c0 ∨ writtenIdOk base id := by
  cases scraped with
  | none =>
    simp only [main, Option.some.injEq] at h
    subst h
    exact fun id hid => Or.inl hid
  | some orig =>
    simp only [main] at h
    split_ifs at h with horig
    · simp only [Option.some.injEq] at h
      subst h
      exact fun id hid => Or.inl hid
    · cases hloop : mainLoop spin base (List.range' 1 n) orig
          (store_content_in_chroma c0 (base ++ "_original") orig "original") input with
      | none => simp [hloop] at h
      | some r' =>
        simp only [hloop, Option.some.injEq] at h
        subst h
        intro id hid
        rcases mainLoop_ids hloop id hid with hid2 | ⟨i, hid2⟩
        · rcases mem_idsOf_store _ _ _ _ hid2 with hid3 | hid3
          · exact Or.inl hid3
          · exact Or.inr (Or.inl hid3)
        · rcases hid2 with h1 | h1 | h1
          · exact Or.inr (Or.inr (Or.inl ⟨i, h1⟩))
          · exact Or.inr (Or.inr (Or.inr (Or.inl ⟨i, h1⟩)))
          · exact Or.inr (Or.inr (Or.inr (Or.inr ⟨i, h1⟩)))

/-- C3 (witness): the amended theorem applied to a concrete one-iteration
accept run, at the id `bk_original`. -/
theorem C3_amended_witness :
    "bk_original" ∈ idsOf ([] : Collection) ∨ writtenIdOk "bk" "bk_original" :=
  C3_amended spinIterTag (some "orig") "bk" 1 [] ["accept"]
    ⟨[("bk_original", ⟨"orig", "bk_original", "original"⟩),
      ("bk_ai_spun_iter_1", ⟨"spun_1", "bk_ai_spun_iter_1", "ai_spun_iter_1"⟩),
      ("bk_iter_1_final", ⟨"spun_1", "bk_iter_1_final", "final"⟩)], true, [1]⟩
    (by decide) "bk_original" (by decide)

/-- C4.  In a 3-iteration run against a fresh store in which iteration 1
completes (spin yields truthy `t1`, the checkpoint returns truthy `d`) and
the Transformer fails on iteration 2 (`spin 2 d = none`), the final store is
exactly `c'` — the store as it stood after iteration 1's checkpoint, i.e. the
original plus iteration 1's variants — iteration 2 was entered
(`started = [1, 2]`) and the run still reaches the demonstration query
(`reachedQuery = true`) instead of aborting. -/
theorem C4_transformer_fails_iter2 (spin : Nat → String → Option String)
    (base orig t1 d : String) (c' : Collection) (input rest : List String)
    (horig : orig ≠ "") (ht1 : t1 ≠ "") (hd : d ≠ "")
    (h1 : spin 1 orig = some t1)
    (hchk : human_in_the_loop_feedback t1 (base ++ "_iter_" ++ toString 1)
      (store_content_in_chroma
        (store_content_in_chroma [] (base ++ "_original") orig "original")
        (base ++ "_ai_spun_iter_" ++ toString 1) t1 ("ai_spun_iter_" ++ toString 1)) input
        = some (some d, c', rest))
    (h2 : spin 2 d = none) :
    main spin (some orig) base 3 [] input = some ⟨c', true, [1, 2]⟩ := by
  have hspin1 : ai_spin_chapter spin orig 1 = some t1 := by
    simp [ai_spin_chapter, horig, h1]
  have hspin2 : ai_spin_chapter spin d 2 = none := by
    simp [ai_spin_chapter, hd, h2]
  have hloop2 : mainLoop spin base [2, 3] d c' rest = some ⟨c', d, rest, [2]⟩ :=
    mainLoop_spin_fail spin base d c' rest 2 [3] hspin2
  have hloop : mainLoop spin base [1, 2, 3] orig
      (store_content_in_chroma [] (base ++ "_original") orig "original") input =
      some ⟨c', d, rest, [1, 2]⟩ := by
    rw [mainLoop_human_continue spin base orig t1 d _ c' input rest 1 [2, 3] hspin1 ht1 hchk hd,
      hloop2]
    rfl
  have hrange : List.range' 1 3 = [1, 2, 3] := rfl
  simp only [main, hrange, if_neg horig, hloop]

/-- C4 (witness): the theorem at a concrete run — spin succeeds on iteration
1 with `"t1"`, the operator accepts, spin fails on iteration 2. -/
theorem C4_witness :
    main spinFailsAt2 (some "orig") "bk" 3 [] ["accept"] =
      some ⟨[("bk_original", ⟨"orig", "bk_original", "original"⟩),
             ("bk_ai_spun_iter_1", ⟨"t1", "bk_ai_spun_iter_1", "ai_spun_iter_1"⟩),
             ("bk_iter_1_final", ⟨"t1", "bk_iter_1_final", "final"⟩)], true, [1, 2]⟩ :=
  C4_transformer_fails_iter2 spinFailsAt2 "bk" "orig" "t1" "t1"
    [("bk_original", ⟨"orig", "bk_original", "original"⟩),
     ("bk_ai_spun_iter_1", ⟨"t1", "bk_ai_spun_iter_1", "ai_spun_iter_1"⟩),
     ("bk_iter_1_final", ⟨"t1", "bk_iter_1_final", "final"⟩)]
    ["accept"] [] (by decide) (by decide) (by decide) rfl (by decide) rfl

/-- C5.  Once a document is stored under an id, no later write through the
pipeline's store operation changes it: a subsequent `store_content_in_chroma`
— under the same id (rejected duplicate) or any other id (appended elsewhere)
— leaves the content and metadata found under that id untouched. -/
theorem C5_immutable_once_written (c : Collection) (id : String) (doc : StoredDoc)
    (id2 ct tg : String) (h : findDoc c id = some doc) :
    findDoc (store_content_in_chroma c id2 ct tg) id = some doc := by
  unfold store_content_in_chroma
  split
  · exact h
  · exact findDoc_append_of_some c _ id doc h

/-- C5 (witness): a stored document survives a later write under another id. -/
theorem C5_witness :
    findDoc [("bk_original", (⟨"orig", "bk_original", "original"⟩ : StoredDoc))]
        "bk_original" = some ⟨"orig", "bk_original", "original"⟩ ∧
    findDoc (store_content_in_chroma
        [("bk_original", ⟨"orig", "bk_original", "original"⟩)]
        "bk_iter_1_human_edited" "edited" "human_edited") "bk_original" =
      some ⟨"orig", "bk_original", "original"⟩ :=
  ⟨by decide,
   C5_immutable_once_written [("bk_original", ⟨"orig", "bk_original", "original"⟩)]
     "bk_original" ⟨"orig", "bk_original", "original"⟩
     "bk_iter_1_human_edited" "edited" "human_edited" (by decide)⟩

/-- C6.  On decision `accept` the checkpoint returns exactly the input text
and writes exactly one new variant: stored under `{variantBaseId}_final`,
with the input text as content and version tag `final` (freshness of the id,
true in every pipeline run, makes the `add` succeed). -/
theorem C6_accept_exact (text chapter_id : String) (c : Collection) (rest : List String)
    (hfresh : findDoc c (chapter_id ++ "_final") = none) :
    human_in_the_loop_feedback text chapter_id c ("accept" :: rest) =
      some (some text,
        c ++ [(chapter_id ++ "_final", ⟨text, chapter_id ++ "_final", "final"⟩)], rest) := by
  rw [checkpoint_accept]
  simp [store_content_in_chroma, hfresh]

/-- C6 (witness): accept at a concrete input. -/
theorem C6_witness :
    human_in_the_loop_feedback "Chapter text" "bk_iter_1" [] ["accept"] =
      some (some "Chapter text",
        [("bk_iter_1" ++ "_final",
          ⟨"Chapter text", "bk_iter_1" ++ "_final", "final"⟩)], []) :=
  C6_accept_exact "Chapter text" "bk_iter_1" [] [] rfl

/-- C7.  On decision `edit` with the subsequent lines
`["Hello", "World", "DONE"]` the checkpoint returns `"Hello\nWorld"` (the
collected lines joined by newline, sentinel excluded) and writes exactly one
new variant, under `{variantBaseId}_human_edited` with tag `human_edited`. -/
theorem C7_edit_hello_world (text chapter_id : String) (c : Collection) (rest : List String)
    (hfresh : findDoc c (chapter_id ++ "_human_edited") = none) :
    human_in_the_loop_feedback text chapter_id c
        ("edit" :: "Hello" :: "World" :: "DONE" :: rest) =
      some (some "Hello\nWorld",
        c ++ [(chapter_id ++ "_human_edited",
          ⟨"Hello\nWorld", chapter_id ++ "_human_edited", "human_edited"⟩)], rest) := by
  have hsp : splitAtSentinel ("Hello" :: "World" :: "DONE" :: rest) =
      some (["Hello", "World"], rest) := by
    simp [splitAtSentinel, show isSentinel "Hello" = false from rfl,
      show isSentinel "World" = false from rfl, show isSentinel "DONE" = true from rfl]
  rw [checkpoint_edit text chapter_id c _ _ _ hsp,
    show String.intercalate "\n" ["Hello", "World"] = "Hello\nWorld" from rfl]
  simp [store_content_in_chroma, hfresh]

/-- C7 (witness): the edit session at a concrete input. -/
theorem C7_witness :
    human_in_the_loop_feedback "Spun text" "bk_iter_1" []
        ["edit", "Hello", "World", "DONE"] =
      some (some "Hello\nWorld",
        [("bk_iter_1" ++ "_human_edited",
          ⟨"Hello\nWorld", "bk_iter_1" ++ "_human_edited", "human_edited"⟩)], []) :=
  C7_edit_hello_world "Spun text" "bk_iter_1" [] [] rfl

/-- C8.  On decision `reject` the checkpoint returns `None` (the rejection
signal) and the collection is returned exactly as it was — zero new variants
are written. -/
theorem C8_reject_writes_nothing (text chapter_id : String) (c : Collection)
    (rest : List String) :
    human_in_the_loop_feedback text chapter_id c ("reject" :: rest) =
      some (none, c, rest) :=
  rfl

/-- C9.  If the primary content selector (`div.mw-parser-output p`) matches
zero elements, extraction falls back to the generic selector (`body p`, all
paragraphs) and the result is the paragraph texts joined by newlines in
document order. -/
theorem C9_selector_fallback (doc : List Paragraph) (h : queryPrimary doc = []) :
    scraped_text doc = String.intercalate "\n" (doc.map (·.text)) := by
  simp [scraped_text, h]

/-- C9 (witness): a page with no `div.mw-parser-output` paragraphs. -/
theorem C9_witness :
    queryPrimary [⟨"First.", false⟩, ⟨"Second.", false⟩] = [] ∧
    scraped_text [⟨"First.", false⟩, ⟨"Second.", false⟩] =
      String.intercalate "\n"
        (([⟨"First.", false⟩, ⟨"Second.", false⟩] : List Paragraph).map (·.text)) :=
  ⟨rfl, C9_selector_fallback [⟨"First.", false⟩, ⟨"Second.", false⟩] rfl⟩

/-- C10.  The demonstration query of `main` calls the search helper without
an `n_results` argument, so the default of 1 applies: whatever the store
contains and whatever the distance function does, the ranked result list the
report is printed from has at most one entry. -/
theorem C10_query_at_most_one (dist : String → String → Int) (c : Collection) :
    (main_semantic_search dist c).length ≤ 1 := by
  unfold main_semantic_search semantic_search_chroma
  rw [List.length_take]
  exact Nat.min_le_left 1 _

end BookPipeline
